import Mathlib

/-!
Shallow embedding of the publisher-extraction pipeline of the
stablekraft-app repository, covering the two scripts
`scripts/root-scripts/extract_publishers.py` and
`scripts/root-scripts/final_publisher_summary.py`.

Python dictionaries are modelled as association lists with
insertion-order semantics (`pyInsert` updates in place, appends fresh
keys at the end), Python string truthiness as emptiness tests, and the
Python `set` of reference pairs as its first-encounter-order contents
together with an arbitrary enumeration function standing for the
hash-dependent iteration order.
-/

namespace StableKraft

/-- Prefix test on character lists (Python-style, used for substring search). -/
def hasPrefixL : List Char → List Char → Bool
  | [], _ => true
  | _ :: _, [] => false
  | a :: as, b :: bs => a == b && hasPrefixL as bs

/-- Infix test on character lists; models Python `pat in s`. -/
def hasInfixL (p : List Char) : List Char → Bool
  | [] => p.isEmpty
  | c :: t => hasPrefixL p (c :: t) || hasInfixL p t

/-- Python substring containment `pat in s`. -/
def containsSub (pat s : String) : Bool := hasInfixL pat.toList s.toList

/-- Splitting a character list at every occurrence of a separator,
with Python `str.split(sep)` semantics (empty pieces kept). -/
def splitOnChar (sep : Char) : List Char → List (List Char)
  | [] => [[]]
  | x :: xs =>
    match splitOnChar sep xs with
    | acc :: rest => if x == sep then [] :: acc :: rest else (x :: acc) :: rest
    | [] => [[]]

/-- Python `url.split('/')[-1]`: the final slash-delimited segment. -/
def lastSegment (s : String) : String :=
  String.mk ((splitOnChar '/' s.toList).getLastD [])

/-- Python `s[:n]` on a string: the first `n` characters. -/
def strTake (n : Nat) (s : String) : String := String.mk (s.toList.take n)

/-- Python `s.lower()`, restricted to ASCII case folding, which is all
the scripts' data exercises. -/
def lowerStr (s : String) : String := String.mk (s.toList.map Char.toLower)

/-- Python `a or b` on strings: `b` when `a` is falsy (empty), else `a`. -/
def pyOrS (a b : String) : String := if a.isEmpty then b else a

/-- Python truthiness of an optional string (`if guid:`):
false for `None` and for the empty string. -/
def truthy : Option String → Bool
  | none => false
  | some s => !s.isEmpty

/-- Guard of `create_human_readable_mappings` and of the script-2 report
loop: `not guid or guid == 'None'`. -/
def guidBad : Option String → Bool
  | none => true
  | some g => g.isEmpty || g == "None"

/-- Python dict insertion `m[k] = v`: updates an existing key in place,
otherwise appends the new binding at the end. -/
def pyInsert {κ ρ : Type} [DecidableEq κ] (m : List (κ × ρ)) (k : κ) (v : ρ) :
    List (κ × ρ) :=
  if k ∈ m.map Prod.fst then m.map (fun p => if p.1 = k then (k, v) else p)
  else m ++ [(k, v)]

/-- Python dict lookup `m[k]` / `k in m` combined: the value bound to `k`. -/
def pyLookup {κ ρ : Type} [DecidableEq κ] (m : List (κ × ρ)) (k : κ) : Option ρ :=
  (m.find? (fun p => decide (p.1 = k))).map Prod.snd

/-- The key list of an association-list dictionary. -/
def keysOf {κ ρ : Type} (m : List (κ × ρ)) : List κ := m.map Prod.fst

/-- Loop that conditionally upserts one binding per element, as in the
primary scans and the display-mapping loop. -/
def upsertFold {α κ ρ : Type} [DecidableEq κ] (G : α → Bool) (kf : α → κ)
    (rf : α → ρ) (m : List (κ × ρ)) (xs : List α) : List (κ × ρ) :=
  xs.foldl (fun m x => if G x then pyInsert m (kf x) (rf x) else m) m

/-- Loop that inserts one binding per element only when its key is not
yet present, as in the reference scans (`guid and guid not in publishers`). -/
def freshFold {α κ ρ : Type} [DecidableEq κ] (G : α → Bool) (kf : α → κ)
    (rf : α → ρ) (m : List (κ × ρ)) (xs : List α) : List (κ × ρ) :=
  xs.foldl
    (fun m x => if G x && !(decide (kf x ∈ m.map Prod.fst)) then
        pyInsert m (kf x) (rf x)
      else m) m

/-- Stable insertion of `x` after every element `y` with `le y x`. -/
def insOrdered {α : Type} (le : α → α → Bool) (x : α) : List α → List α
  | [] => [x]
  | y :: ys => if le y x then y :: insOrdered le x ys else x :: y :: ys

/-- Python `sorted`: a stable ascending sort. -/
def pySorted {α : Type} (le : α → α → Bool) (l : List α) : List α :=
  l.foldl (fun acc x => insOrdered le x acc) []

/-- Lexicographic order on character lists, modelling Python string `<=`. -/
def charListLe : List Char → List Char → Bool
  | [], _ => true
  | _ :: _, [] => false
  | a :: as, b :: bs => if a == b then charListLe as bs else decide (a < b)

/-- Python string comparison used as a sort key order. -/
def strLe (a b : String) : Bool := charListLe a.toList b.toList

/-- Python `"-" * n` rule lines. -/
def hr (n : Nat) : String := String.mk (List.replicate n '-')

/-! ## Data model of the input JSON (`data/parsed-feeds.json`) -/

/-- A `parsedData.album.publisher` reference object. -/
structure PublisherRef where
  medium : Option String
  feedGuid : Option String
  feedUrl : Option String
deriving DecidableEq

/-- A `parsedData.album` object. -/
structure Album where
  publisher : Option PublisherRef
  artist : Option String
deriving DecidableEq

/-- A `parsedData.publisherInfo` object. -/
structure PublisherInfo where
  title : Option String
  artist : Option String
  description : Option String
deriving DecidableEq

/-- A `parsedData` object. -/
structure ParsedData where
  album : Option Album
  publisherInfo : Option PublisherInfo
deriving DecidableEq

/-- A feed record of the input document; any field may be absent. -/
structure Feed where
  type : Option String
  originalUrl : Option String
  title : Option String
  id : Option String
  status : Option String
  priority : Option String
  parsedData : Option ParsedData
deriving DecidableEq

def emptyRef : PublisherRef := ⟨none, none, none⟩
def emptyAlbum : Album := ⟨none, none⟩
def emptyPI : PublisherInfo := ⟨none, none, none⟩
def emptyPD : ParsedData := ⟨none, none⟩

/-! ## Script 1: `extract_publishers.py` -/

/-- Publisher record built by `extract_publishers.py`. -/
structure PubRec1 where
  feedGuid : Option String
  feedUrl : String
  title : String
  id : String
  parsedData : ParsedData
deriving DecidableEq

/-- GUID resolution of `extract_publishers.py` (lines 16-19): Wavlake
artist URLs take the final path segment, the BitPunk publisher feed takes
a fixed literal, anything else resolves to `None`. -/
def resolveGuid1 (url : String) : Option String :=
  if containsSub "wavlake.com/feed/artist/" url then some (lastSegment url)
  else if containsSub "zine.bitpunk.fm/feeds/publisher.xml" url then
    some "5883e6be-4e0c-11f0-9524-00155dc57d8e"
  else none

/-- Whether a feed participates in a primary scan (`feed.get('type') == 'publisher'`). -/
def isPub (f : Feed) : Bool := f.type == some "publisher"

/-- The key under which a primary-scan record of script 1 is stored. -/
def key1 (f : Feed) : Option String := resolveGuid1 (f.originalUrl.getD "")

/-- The record stored by the primary scan of script 1 (lines 22-28). -/
def mkPrimary1 (f : Feed) : PubRec1 :=
  let url := f.originalUrl.getD ""
  { feedGuid := resolveGuid1 url
    feedUrl := url
    title := f.title.getD ""
    id := f.id.getD ""
    parsedData := f.parsedData.getD emptyPD }

/-- Primary scan of script 1 (lines 11-28). -/
def primaryScan1 (fs : List Feed) : List (Option String × PubRec1) :=
  upsertFold isPub key1 mkPrimary1 [] fs

/-- The GUID a feed's `parsedData.album.publisher` reference contributes
to the reference scan, when its `medium` is `publisher` and the GUID is
truthy (lines 37-43 of script 1). -/
def refGuid (f : Feed) : Option String :=
  match (f.parsedData.getD emptyPD).album with
  | none => none
  | some alb =>
    let pub := alb.publisher.getD emptyRef
    if pub.medium == some "publisher" then
      match pub.feedGuid with
      | some g => if g.isEmpty then none else some g
      | none => none
    else none

/-- The placeholder record synthesized by the reference scan of script 1
(lines 44-50); only meaningful when `refGuid` is `some`. -/
def synth1 (f : Feed) : PubRec1 :=
  match (f.parsedData.getD emptyPD).album with
  | none => ⟨none, "", "", "", emptyPD⟩
  | some alb =>
    let pub := alb.publisher.getD emptyRef
    let artist := alb.artist.getD ""
    match pub.feedGuid with
    | some g =>
      ⟨some g, pub.feedUrl.getD "",
        if artist.isEmpty then "Unknown Publisher"
        else "Unknown Publisher (" ++ artist ++ ")",
        "publisher-" ++ g, emptyPD⟩
    | none => ⟨none, "", "", "", emptyPD⟩

/-- The publisher map returned by `extract_publishers` (the script's
`publisher_references` by-product is report-only and carries no claim). -/
def extract_publishers (fs : List Feed) : List (Option String × PubRec1) :=
  freshFold (fun f => (refGuid f).isSome) refGuid synth1 (primaryScan1 fs) fs

/-- Count printed by script 1: `len([g for g in publishers.keys() if g])`. -/
def count1 (fs : List Feed) : Nat :=
  ((extract_publishers fs).map Prod.fst |>.filter truthy).length

/-! ## Script 2: `final_publisher_summary.py` -/

/-- Publisher record built by `final_publisher_summary.py`. -/
structure PubRec2 where
  feedGuid : Option String
  feedUrl : String
  title : String
  id : String
  publisherName : String
  artist : String
  description : String
  status : String
  priority : String
deriving DecidableEq

/-- GUID resolution of `final_publisher_summary.py` (lines 15-22): the
two rules of script 1 plus a special-cased aggregator domain. -/
def resolveGuid2 (url : String) : Option String :=
  if containsSub "wavlake.com/feed/artist/" url then some (lastSegment url)
  else if containsSub "zine.bitpunk.fm/feeds/publisher.xml" url then
    some "5883e6be-4e0c-11f0-9524-00155dc57d8e"
  else if containsSub "re.podtards.com" url then some "doerfels-publisher-special"
  else none

/-- The key under which a primary-scan record of script 2 is stored. -/
def key2 (f : Feed) : Option String := resolveGuid2 (f.originalUrl.getD "")

/-- The record stored by the primary scan of script 2 (lines 24-36). -/
def mkPrimary2 (f : Feed) : PubRec2 :=
  let url := f.originalUrl.getD ""
  let pi := (f.parsedData.getD emptyPD).publisherInfo.getD emptyPI
  { feedGuid := resolveGuid2 url
    feedUrl := url
    title := f.title.getD ""
    id := f.id.getD ""
    publisherName := pi.title.getD ""
    artist := pi.artist.getD ""
    description := pi.description.getD ""
    status := f.status.getD ""
    priority := f.priority.getD "" }

/-- Primary scan of script 2 (lines 10-36). -/
def primaryScan2 (fs : List Feed) : List (Option String × PubRec2) :=
  upsertFold isPub key2 mkPrimary2 [] fs

/-- One step of collecting the Python set `unique_feed_guids`
(lines 40-49): membership-guarded accumulation of `(guid, url)` pairs. -/
def refPairStep (s : List (Option String × String)) (f : Feed) :
    List (Option String × String) :=
  match (f.parsedData.getD emptyPD).album with
  | none => s
  | some alb =>
    let pub := alb.publisher.getD emptyRef
    if pub.medium == some "publisher" then
      let pr := (pub.feedGuid, pub.feedUrl.getD "")
      if pr ∈ s then s else s ++ [pr]
    else s

/-- Contents of the Python set `unique_feed_guids` (lines 39-49) in
first-encounter order; the set's actual iteration order is an arbitrary
permutation of this list, supplied separately. -/
def refPairsSet (fs : List Feed) : List (Option String × String) :=
  fs.foldl refPairStep []

/-- The placeholder record synthesized by script 2 for a referenced
`(guid, url)` pair (lines 54-69). -/
def synth2 (p : Option String × String) : PubRec2 :=
  let g := p.1.getD ""
  { feedGuid := p.1
    feedUrl := p.2
    title := if containsSub "wavlake.com" p.2 then
        "Wavlake Artist (" ++ strTake 8 g ++ "...)"
      else "Unknown Publisher"
    id := "publisher-" ++ g
    publisherName := ""
    artist := ""
    description := ""
    status := "referenced"
    priority := "unknown" }

/-- `extract_all_publishers`, parameterised by the set iteration order
`enum` (a permutation of the reference-pair set). -/
def extract_all_publishers (fs : List Feed)
    (enum : List (Option String × String) → List (Option String × String)) :
    List (Option String × PubRec2) :=
  freshFold (fun p => truthy p.1) Prod.fst synth2 (primaryScan2 fs)
    (enum (refPairsSet fs))

/-- The identity enumeration of the reference set. -/
def idEnum : List (Option String × String) → List (Option String × String) :=
  fun l => l

/-- The reversed enumeration of the reference set (another legitimate
iteration order of the Python set). -/
def revEnum : List (Option String × String) → List (Option String × String) :=
  List.reverse

/-- A display mapping entry of `create_human_readable_mappings`. -/
structure Mapping where
  guid : String
  displayName : String
  urlSlug : String
  feedUrl : String
  status : String
deriving DecidableEq

/-- URL-based fallback display names (lines 85-94 of script 2). -/
def urlFallbackName (g url : String) : String :=
  if containsSub "wavlake.com/feed/artist/" url then "Wavlake Artist " ++ strTake 8 g
  else if containsSub "bitpunk.fm" url then "BitPunk.fm"
  else if containsSub "doerfel" (lowerStr url) then "The Doerfels"
  else "Publisher " ++ strTake 8 g

/-- Slug derivation (line 97 of script 2):
`display_name.lower().replace(' ', '-').replace('(', '').replace(')', '').replace('.', '')`,
written over characters since every pattern is a single character. -/
def urlSafe (s : String) : String :=
  String.mk (((s.toList.map Char.toLower).map
      (fun c => if c == ' ' then '-' else c)).filter
    (fun c => !(c == '(') && !(c == ')') && !(c == '.')))

/-- The mapping entry built for one valid publisher record (lines 82-105). -/
def mkMapping (g : String) (info : PubRec2) : Mapping :=
  let dn0 := pyOrS info.publisherName (pyOrS info.title info.artist)
  let dn := if dn0.isEmpty || dn0 == "Unknown Publisher" then
      urlFallbackName g info.feedUrl
    else dn0
  { guid := g
    displayName := dn
    urlSlug := urlSafe dn
    feedUrl := info.feedUrl
    status := info.status }

/-- `create_human_readable_mappings` (lines 73-107). -/
def create_human_readable_mappings (pubs : List (Option String × PubRec2)) :
    List (String × Mapping) :=
  upsertFold (fun p => !guidBad p.1) (fun p => p.1.getD "")
    (fun p => mkMapping (p.1.getD "") p.2) [] pubs

/-- Transcribed from the claim wording of the name-resolution precedence
(spec section 4.4), to be compared with the display name the code
computes: `publisherName`, then `title`, then `artist`; when the result
is empty or equals the literal `Unknown Publisher`, URL-based fallbacks
apply in order. -/
def displayNameSpec (g : String) (info : PubRec2) : String :=
  let base := if info.publisherName ≠ "" then info.publisherName
    else if info.title ≠ "" then info.title
    else info.artist
  if base = "" ∨ base = "Unknown Publisher" then
    if containsSub "wavlake.com/feed/artist/" info.feedUrl then
      "Wavlake Artist " ++ strTake 8 g
    else if containsSub "bitpunk.fm" info.feedUrl then "BitPunk.fm"
    else if containsSub "doerfel" (lowerStr info.feedUrl) then "The Doerfels"
    else "Publisher " ++ strTake 8 g
  else base

/-- Sort key of the script-2 report loop:
`x[1]['title'] if x[1]['title'] else ''`. -/
def titleKey (r : PubRec2) : String := if !r.title.isEmpty then r.title else ""

/-- The per-publisher detail block printed by script 2 (lines 119-127). -/
def pubBlock (g : String) (info : PubRec2) : List String :=
  ["Feed GUID: " ++ g,
   "Feed URL: " ++ info.feedUrl,
   "Title: " ++ info.title,
   "Publisher Name: " ++ info.publisherName,
   "Artist: " ++ info.artist,
   "Description: " ++ info.description,
   "Status: " ++ info.status,
   "Priority: " ++ info.priority,
   hr 60]

/-- The per-mapping block printed by script 2 (lines 135-140). -/
def mapBlock (g : String) (m : Mapping) : List String :=
  ["GUID: " ++ g,
   "Display Name: " ++ m.displayName,
   "URL Slug: " ++ m.urlSlug,
   "Feed URL: " ++ m.feedUrl,
   "Status: " ++ m.status,
   hr 40]

/-- The list of valid GUID keys counted by script 2 (line 129). -/
def validKeys2 (pubs : List (Option String × PubRec2)) : List (Option String) :=
  (pubs.map Prod.fst).filter (fun g => !guidBad g)

/-- The full printed report of script 2's `__main__` (lines 109-140),
one list entry per `print` call. -/
def reportOf (pubs : List (Option String × PubRec2)) : List String :=
  let mappings := create_human_readable_mappings pubs
  let blocks :=
    ((pySorted (fun a b => strLe (titleKey a.2) (titleKey b.2)) pubs).map
      (fun p => if guidBad p.1 then [] else pubBlock (p.1.getD "") p.2)).flatten
  let mapBlocks :=
    ((pySorted (fun a b => strLe a.2.displayName b.2.displayName) mappings).map
      (fun p => mapBlock p.1 p.2)).flatten
  ["=== ALL UNIQUE PUBLISHERS ===\n"] ++ blocks
    ++ ["\nTotal unique publishers: " ++ toString (validKeys2 pubs).length,
        "\n=== HUMAN-READABLE URL MAPPINGS ===\n"] ++ mapBlocks

/-- The report as a function of the document and the set iteration order. -/
def report2 (fs : List Feed)
    (enum : List (Option String × String) → List (Option String × String)) :
    List String :=
  reportOf (extract_all_publishers fs enum)

/-! ## Default-filling transforms for the defensive-field-access claim -/

/-- Replace an absent string field by the empty-string default the
scripts read it as (`feed.get(field, '')`). -/
def fillStr (o : Option String) : Option String := some (o.getD "")

/-- Fill the string fields of a feed and normalize an absent `parsedData`
to the empty object, the way script 1 accesses them. -/
def fillFeed1 (f : Feed) : Feed :=
  { type := fillStr f.type
    originalUrl := fillStr f.originalUrl
    title := fillStr f.title
    id := fillStr f.id
    status := fillStr f.status
    priority := fillStr f.priority
    parsedData := some (f.parsedData.getD emptyPD) }

/-- Fill the defaulted string fields of a publisher reference
(`feedGuid` has no default in the scripts and is left untouched). -/
def fillRef (r : PublisherRef) : PublisherRef :=
  ⟨fillStr r.medium, r.feedGuid, fillStr r.feedUrl⟩

/-- Fill an album object, normalizing an absent publisher reference. -/
def fillAlbum (a : Album) : Album :=
  ⟨some (fillRef (a.publisher.getD emptyRef)), fillStr a.artist⟩

/-- Fill a `publisherInfo` object. -/
def fillPI (pi : PublisherInfo) : PublisherInfo :=
  ⟨fillStr pi.title, fillStr pi.artist, fillStr pi.description⟩

/-- Fill a `parsedData` object, normalizing absent substructures. -/
def fillPD (pd : ParsedData) : ParsedData :=
  ⟨some (fillAlbum (pd.album.getD emptyAlbum)),
   some (fillPI (pd.publisherInfo.getD emptyPI))⟩

/-- Deep default-filling of a feed, the way script 2 accesses it. -/
def fillFeed2 (f : Feed) : Feed :=
  { type := fillStr f.type
    originalUrl := fillStr f.originalUrl
    title := fillStr f.title
    id := fillStr f.id
    status := fillStr f.status
    priority := fillStr f.priority
    parsedData := some (fillPD (f.parsedData.getD emptyPD)) }

/-! ## Accessors used to state the reference-scan synthesis claim -/

/-- The album artist string script 1 derives the placeholder title from
(`parsed_data['album'].get('artist', '')`). -/
def refArtistOf (f : Feed) : String :=
  (((f.parsedData.getD emptyPD).album.getD emptyAlbum).artist.getD "")

/-- The feed URL stored on a synthesized script-1 record
(`publisher_info.get('feedUrl', '')`). -/
def refFeedUrlOf (f : Feed) : String :=
  ((((f.parsedData.getD emptyPD).album.getD emptyAlbum).publisher.getD
    emptyRef).feedUrl.getD "")

/-! ## Concrete input documents used by scenarios and counterexamples -/

/-- A URL containing both the Wavlake artist path and the BitPunk
publisher path. -/
def bothUrl : String :=
  "https://wavlake.com/feed/artist/zine.bitpunk.fm/feeds/publisher.xml"

/-- The script-2 record the primary scan builds for `wavFeed`. -/
def wavRec2 : PubRec2 :=
  ⟨some "abc123", "https://wavlake.com/feed/artist/abc123", "Artist X",
   "", "", "", "", "", ""⟩

/-- The display mapping built for `wavRec2`. -/
def wavMapping : Mapping :=
  ⟨"abc123", "Artist X", "artist-x", "https://wavlake.com/feed/artist/abc123", ""⟩

/-- The Wavlake artist scenario feed of the spec. -/
def wavFeed : Feed :=
  { type := some "publisher"
    originalUrl := some "https://wavlake.com/feed/artist/abc123"
    title := some "Artist X"
    id := none, status := none, priority := none, parsedData := none }

/-- A BitPunk publisher feed with no usable name fields. -/
def bitFeed : Feed :=
  { type := some "publisher"
    originalUrl := some "https://zine.bitpunk.fm/feeds/publisher.xml"
    title := none, id := none, status := none, priority := none, parsedData := none }

/-- A publisher feed whose URL contains both the Wavlake artist path and
the BitPunk publisher path. -/
def bothFeed : Feed :=
  { type := some "publisher"
    originalUrl := some bothUrl
    title := none, id := none, status := none, priority := none, parsedData := none }

/-- The album-embedding scenario feed of the spec: publisher reference
`{"medium":"publisher","feedGuid":"xyz","feedUrl":"u"}` with artist `Band Y`. -/
def bandYFeed : Feed :=
  { type := none, originalUrl := none, title := some "Some Album"
    id := none, status := none, priority := none
    parsedData := some
      ⟨some ⟨some ⟨some "publisher", some "xyz", some "u"⟩, some "Band Y"⟩, none⟩ }

/-- An album-embedding feed whose publisher reference carries the empty
string as its GUID (non-null but falsy). -/
def emptyGuidFeed : Feed :=
  { type := none, originalUrl := none, title := some "Album E"
    id := none, status := none, priority := none
    parsedData := some
      ⟨some ⟨some ⟨some "publisher", some "", some "u"⟩, some "Artist E"⟩, none⟩ }

/-- A publisher feed whose URL matches no GUID rule. -/
def unmatchedFeed : Feed :=
  { type := some "publisher"
    originalUrl := some "https://example.com/feed.xml"
    title := some "Mystery"
    id := none, status := none, priority := none, parsedData := none }

/-- A second publisher feed whose URL matches no GUID rule. -/
def unmatchedFeed2 : Feed :=
  { type := some "publisher"
    originalUrl := some "https://example.org/other.xml"
    title := some "Mystery 2"
    id := none, status := none, priority := none, parsedData := none }

/-- A feed record with every field absent. -/
def blankFeed : Feed :=
  { type := none, originalUrl := none, title := none
    id := none, status := none, priority := none, parsedData := none }

/-- A feed referencing publisher GUID `g` under URL `u1`. -/
def refFeedA : Feed :=
  { type := none, originalUrl := none, title := some "Album A"
    id := none, status := none, priority := none
    parsedData := some ⟨some ⟨some ⟨some "publisher", some "g", some "u1"⟩, none⟩, none⟩ }

/-- A feed referencing publisher GUID `g` under URL `u2`. -/
def refFeedB : Feed :=
  { type := none, originalUrl := none, title := some "Album B"
    id := none, status := none, priority := none
    parsedData := some ⟨some ⟨some ⟨some "publisher", some "g", some "u2"⟩, none⟩, none⟩ }

/-! ## Dictionary lemmas -/

theorem and_true_left {a b : Bool} (h : (a && b) = true) : a = true := by
  rw [Bool.and_eq_true] at h
  exact h.1

theorem and_true_right {a b : Bool} (h : (a && b) = true) : b = true := by
  rw [Bool.and_eq_true] at h
  exact h.2

theorem fst_ite_update {κ ρ : Type} [DecidableEq κ] (k : κ) (v : ρ) (p : κ × ρ) :
    (if p.1 = k then (k, v) else p).1 = p.1 := by
  by_cases h : p.1 = k
  · simp [h]
  · simp [h]

theorem keysOf_pyInsert_of_mem {κ ρ : Type} [DecidableEq κ] {m : List (κ × ρ)}
    {k : κ} (v : ρ) (h : k ∈ keysOf m) : keysOf (pyInsert m k v) = keysOf m := by
  unfold pyInsert
  simp only [keysOf] at h
  rw [if_pos h]
  unfold keysOf
  rw [List.map_map]
  exact List.map_congr_left (fun p _ => fst_ite_update k v p)

theorem pyInsert_of_not_mem {κ ρ : Type} [DecidableEq κ] {m : List (κ × ρ)}
    {k : κ} (v : ρ) (h : k ∉ keysOf m) : pyInsert m k v = m ++ [(k, v)] := by
  unfold pyInsert
  simp only [keysOf] at h
  rw [if_neg h]

theorem mem_keysOf_pyInsert {κ ρ : Type} [DecidableEq κ] {m : List (κ × ρ)}
    {k a : κ} (v : ρ) : a ∈ keysOf (pyInsert m k v) ↔ a = k ∨ a ∈ keysOf m := by
  by_cases h : k ∈ keysOf m
  · rw [keysOf_pyInsert_of_mem v h]
    constructor
    · intro ha; exact Or.inr ha
    · rintro (rfl | ha)
      · exact h
      · exact ha
  · rw [pyInsert_of_not_mem v h]
    unfold keysOf
    rw [List.map_append]
    simp [or_comm]

theorem nodup_keysOf_pyInsert {κ ρ : Type} [DecidableEq κ] {m : List (κ × ρ)}
    {k : κ} (v : ρ) (h : (keysOf m).Nodup) : (keysOf (pyInsert m k v)).Nodup := by
  by_cases hk : k ∈ keysOf m
  · rw [keysOf_pyInsert_of_mem v hk]; exact h
  · rw [pyInsert_of_not_mem v hk]
    unfold keysOf at h ⊢
    rw [List.map_append, List.nodup_append]
    refine ⟨h, by simp, ?_⟩
    intro a ha hb
    simp only [List.map_cons, List.map_nil, List.mem_singleton] at hb
    subst hb
    exact hk ha

theorem pyLookup_eq_none_of_not_mem {κ ρ : Type} [DecidableEq κ]
    {m : List (κ × ρ)} {k : κ} (h : k ∉ keysOf m) : pyLookup m k = none := by
  unfold pyLookup
  have hf : m.find? (fun p => decide (p.1 = k)) = none := by
    rw [List.find?_eq_none]
    intro p hp hdec
    simp only [decide_eq_true_eq] at hdec
    exact h (List.mem_map.mpr ⟨p, hp, hdec⟩)
  rw [hf]
  rfl

theorem mem_keysOf_of_pyLookup {κ ρ : Type} [DecidableEq κ]
    {m : List (κ × ρ)} {k : κ} {v : ρ} (h : pyLookup m k = some v) :
    k ∈ keysOf m := by
  by_contra hk
  rw [pyLookup_eq_none_of_not_mem hk] at h
  exact Option.noConfusion h

theorem pyLookup_pyInsert_self {κ ρ : Type} [DecidableEq κ]
    (m : List (κ × ρ)) (k : κ) (v : ρ) :
    pyLookup (pyInsert m k v) k = some v := by
  by_cases h : k ∈ keysOf m
  · unfold pyInsert
    simp only [keysOf] at h
    rw [if_pos h]
    unfold pyLookup
    rw [List.find?_map]
    have hpred : ((fun p : κ × ρ => decide (p.1 = k)) ∘
        (fun p : κ × ρ => if p.1 = k then (k, v) else p))
        = fun p : κ × ρ => decide (p.1 = k) := by
      funext p
      simp only [Function.comp]
      rw [fst_ite_update]
    rw [hpred]
    obtain ⟨p0, hfind⟩ : ∃ p0, m.find? (fun p => decide (p.1 = k)) = some p0 := by
      have hs : (m.find? (fun p => decide (p.1 = k))).isSome := by
        rw [List.find?_isSome]
        obtain ⟨p, hp, hfst⟩ := List.mem_map.mp h
        exact ⟨p, hp, by simp [hfst]⟩
      exact Option.isSome_iff_exists.mp hs
    have hk0 : p0.1 = k := by simpa using List.find?_some hfind
    rw [hfind]
    simp [hk0]
  · rw [pyInsert_of_not_mem v h]
    unfold pyLookup
    rw [List.find?_append]
    have h1 : m.find? (fun p => decide (p.1 = k)) = none := by
      rw [List.find?_eq_none]
      intro p hp hdec
      simp only [decide_eq_true_eq] at hdec
      exact h (List.mem_map.mpr ⟨p, hp, hdec⟩)
    rw [h1]
    simp [List.find?]

theorem pyLookup_pyInsert_ne {κ ρ : Type} [DecidableEq κ] {k a : κ}
    (m : List (κ × ρ)) (v : ρ) (h : a ≠ k) :
    pyLookup (pyInsert m k v) a = pyLookup m a := by
  by_cases hm : k ∈ keysOf m
  · unfold pyInsert
    simp only [keysOf] at hm
    rw [if_pos hm]
    unfold pyLookup
    rw [List.find?_map]
    have hpred : ((fun p : κ × ρ => decide (p.1 = a)) ∘
        (fun p : κ × ρ => if p.1 = k then (k, v) else p))
        = fun p : κ × ρ => decide (p.1 = a) := by
      funext p
      simp only [Function.comp]
      rw [fst_ite_update]
    rw [hpred]
    cases hfs : m.find? (fun p => decide (p.1 = a)) with
    | none => simp [hfs]
    | some p0 =>
      have ha0 : p0.1 = a := by simpa using List.find?_some hfs
      have hne : (if p0.1 = k then (k, v) else p0) = p0 := by
        rw [if_neg (by rw [ha0]; exact h)]
      simp [hfs, hne]
  · rw [pyInsert_of_not_mem v hm]
    unfold pyLookup
    rw [List.find?_append]
    have h2 : [(k, v)].find? (fun p => decide (p.1 = a)) = none := by
      rw [List.find?_eq_none]
      intro p hp hdec
      simp only [List.mem_singleton] at hp
      subst hp
      simp only [decide_eq_true_eq] at hdec
      exact h hdec.symm
    rw [h2]
    simp

theorem mem_pyInsert {κ ρ : Type} [DecidableEq κ] {m : List (κ × ρ)}
    {k : κ} {v : ρ} {e : κ × ρ} (h : e ∈ pyInsert m k v) :
    e = (k, v) ∨ e ∈ m := by
  unfold pyInsert at h
  by_cases hm : k ∈ keysOf m
  · simp only [keysOf] at hm
    rw [if_pos hm] at h
    obtain ⟨p, hp, he⟩ := List.mem_map.mp h
    by_cases hpk : p.1 = k
    · rw [if_pos hpk] at he
      exact Or.inl he.symm
    · rw [if_neg hpk] at he
      exact Or.inr (he ▸ hp)
  · simp only [keysOf] at hm
    rw [if_neg hm] at h
    rcases List.mem_append.mp h with h1 | h1
    · exact Or.inr h1
    · simp only [List.mem_singleton] at h1
      exact Or.inl h1

theorem filter_keysOf_pyInsert {κ ρ : Type} [DecidableEq κ] (P : κ → Bool)
    (m : List (κ × ρ)) (k : κ) (v : ρ) (h : P k = false) :
    (keysOf (pyInsert m k v)).filter P = (keysOf m).filter P := by
  by_cases hm : k ∈ keysOf m
  · rw [keysOf_pyInsert_of_mem v hm]
  · rw [pyInsert_of_not_mem v hm]
    unfold keysOf
    rw [List.map_append, List.filter_append]
    simp [h]

theorem assoc_unique {κ ρ : Type} [DecidableEq κ] :
    ∀ (m : List (κ × ρ)) (k : κ) (a b : ρ), (keysOf m).Nodup →
      (k, a) ∈ m → (k, b) ∈ m → a = b := by
  intro m
  induction m with
  | nil => intro k a b _ ha; cases ha
  | cons p rest ih =>
    intro k a b hnd ha hb
    have hpnot : p.1 ∉ keysOf rest := (List.nodup_cons.mp hnd).1
    have hnd' : (keysOf rest).Nodup := (List.nodup_cons.mp hnd).2
    rcases List.mem_cons.mp ha with h1 | h1 <;> rcases List.mem_cons.mp hb with h2 | h2
    · exact congrArg Prod.snd (h1.trans h2.symm)
    · exfalso
      apply hpnot
      rw [← h1]
      exact List.mem_map.mpr ⟨(k, b), h2, rfl⟩
    · exfalso
      apply hpnot
      rw [← h2]
      exact List.mem_map.mpr ⟨(k, a), h1, rfl⟩
    · exact ih k a b hnd' h1 h2

theorem filter_eq_singleton_of_nodup {κ ρ : Type} [DecidableEq κ] (q : κ × ρ → Bool) :
    ∀ (m : List (κ × ρ)) (k : κ) (v : ρ), (keysOf m).Nodup → (k, v) ∈ m →
      q (k, v) = true → (∀ p, q p = true → p.1 = k) → m.filter q = [(k, v)] := by
  intro m
  induction m with
  | nil => intro k v _ hm; cases hm
  | cons p rest ih =>
    intro k v hnd hmem hq hkey
    have hpnot : p.1 ∉ keysOf rest := (List.nodup_cons.mp hnd).1
    have hnd' : (keysOf rest).Nodup := (List.nodup_cons.mp hnd).2
    rw [List.filter_cons]
    rcases List.mem_cons.mp hmem with h1 | h1
    · have hrest : rest.filter q = [] := by
        rw [List.filter_eq_nil_iff]
        intro e he hqe
        apply hpnot
        rw [← h1]
        exact List.mem_map.mpr ⟨e, he, hkey e hqe⟩
      rw [if_pos (h1 ▸ hq), hrest, ← h1]
    · have hqp : q p = false := by
        cases hqp : q p
        · rfl
        · exfalso
          apply hpnot
          rw [hkey p hqp]
          exact List.mem_map.mpr ⟨(k, v), h1, rfl⟩
      rw [if_neg (by simp [hqp])]
      exact ih k v hnd' h1 hq hkey

theorem elim_none_some {α β : Type} (o : Option α) (f : α → β) :
    o.elim none (fun x => some (f x)) = o.map f := by
  cases o <;> rfl

/-! ## Lemmas about the upsert loop (primary scans, display mapping) -/

theorem upsertFold_append {α κ ρ : Type} [DecidableEq κ] (G : α → Bool)
    (kf : α → κ) (rf : α → ρ) (m : List (κ × ρ)) (xs : List α) (x : α) :
    upsertFold G kf rf m (xs ++ [x])
      = (if G x then pyInsert (upsertFold G kf rf m xs) (kf x) (rf x)
         else upsertFold G kf rf m xs) := by
  unfold upsertFold
  rw [List.foldl_append]
  rfl

theorem pyLookup_upsertFold {α κ ρ : Type} [DecidableEq κ] (G : α → Bool)
    (kf : α → κ) (rf : α → ρ) (k : κ) (xs : List α) : ∀ m : List (κ × ρ),
    pyLookup (upsertFold G kf rf m xs) k
      = ((xs.filter (fun x => G x && decide (kf x = k))).getLast?).elim
          (pyLookup m k) (fun x => some (rf x)) := by
  induction xs using List.reverseRecOn with
  | nil => intro m; rfl
  | append_singleton ys x ih =>
    intro m
    rw [upsertFold_append, List.filter_append]
    cases hb : (G x && decide (kf x = k)) with
    | true =>
      have hG : G x = true := and_true_left hb
      have hk : kf x = k := of_decide_eq_true (and_true_right hb)
      rw [if_pos hG]
      rw [show List.filter (fun x => G x && decide (kf x = k)) [x] = [x] from by
        simp [List.filter_cons, hb]]
      rw [List.getLast?_concat]
      show pyLookup (pyInsert (upsertFold G kf rf m ys) (kf x) (rf x)) k = some (rf x)
      rw [← hk]
      exact pyLookup_pyInsert_self _ _ _
    | false =>
      rw [show List.filter (fun x => G x && decide (kf x = k)) [x] = [] from by
        simp [List.filter_cons, hb]]
      rw [List.append_nil]
      by_cases hG : G x = true
      · have hkne : kf x ≠ k := by
          intro he
          have : (G x && decide (kf x = k)) = true := by rw [hG, he]; simp
          rw [hb] at this
          exact Bool.false_ne_true this
        rw [if_pos hG]
        rw [pyLookup_pyInsert_ne _ _ (fun he => hkne he.symm)]
        exact ih m
      · rw [if_neg hG]
        exact ih m

theorem nodup_keysOf_upsertFold {α κ ρ : Type} [DecidableEq κ] (G : α → Bool)
    (kf : α → κ) (rf : α → ρ) (xs : List α) : ∀ m : List (κ × ρ),
    (keysOf m).Nodup → (keysOf (upsertFold G kf rf m xs)).Nodup := by
  induction xs with
  | nil => intro m h; exact h
  | cons x xs ih =>
    intro m h
    show (keysOf (upsertFold G kf rf
      (if G x then pyInsert m (kf x) (rf x) else m) xs)).Nodup
    apply ih
    by_cases hG : G x = true
    · rw [if_pos hG]
      exact nodup_keysOf_pyInsert _ h
    · rw [if_neg hG]
      exact h

theorem mem_upsertFold {α κ ρ : Type} [DecidableEq κ] (G : α → Bool)
    (kf : α → κ) (rf : α → ρ) (xs : List α) : ∀ (m : List (κ × ρ)) (e : κ × ρ),
    e ∈ upsertFold G kf rf m xs →
      e ∈ m ∨ ∃ x ∈ xs, G x = true ∧ e = (kf x, rf x) := by
  induction xs with
  | nil => intro m e he; exact Or.inl he
  | cons x xs ih =>
    intro m e he
    have he' : e ∈ upsertFold G kf rf
        (if G x then pyInsert m (kf x) (rf x) else m) xs := he
    rcases ih _ e he' with h1 | ⟨y, hy, hGy, hey⟩
    · by_cases hG : G x = true
      · rw [if_pos hG] at h1
        rcases mem_pyInsert h1 with h2 | h2
        · exact Or.inr ⟨x, List.mem_cons_self x xs, hG, h2⟩
        · exact Or.inl h2
      · rw [if_neg hG] at h1
        exact Or.inl h1
    · exact Or.inr ⟨y, List.mem_cons_of_mem x hy, hGy, hey⟩

/-! ## Lemmas about the fresh-key loop (reference scans) -/

theorem freshFold_cons {α κ ρ : Type} [DecidableEq κ] (G : α → Bool)
    (kf : α → κ) (rf : α → ρ) (m : List (κ × ρ)) (x : α) (xs : List α) :
    freshFold G kf rf m (x :: xs)
      = freshFold G kf rf
          (if G x && !(decide (kf x ∈ m.map Prod.fst)) then
            pyInsert m (kf x) (rf x)
          else m) xs := rfl

theorem mem_keysOf_freshFold {α κ ρ : Type} [DecidableEq κ] (G : α → Bool)
    (kf : α → κ) (rf : α → ρ) (xs : List α) : ∀ (m : List (κ × ρ)) (k : κ),
    k ∈ keysOf m → k ∈ keysOf (freshFold G kf rf m xs) := by
  induction xs with
  | nil => intro m k h; exact h
  | cons x xs ih =>
    intro m k h
    rw [freshFold_cons]
    apply ih
    by_cases hg : (G x && !(decide (kf x ∈ m.map Prod.fst))) = true
    · rw [if_pos hg]
      exact (mem_keysOf_pyInsert _).mpr (Or.inr h)
    · rw [if_neg hg]
      exact h

theorem pyLookup_freshFold_of_mem {α κ ρ : Type} [DecidableEq κ] (G : α → Bool)
    (kf : α → κ) (rf : α → ρ) (xs : List α) : ∀ (m : List (κ × ρ)) (k : κ),
    k ∈ keysOf m → pyLookup (freshFold G kf rf m xs) k = pyLookup m k := by
  induction xs with
  | nil => intro m k _; rfl
  | cons x xs ih =>
    intro m k hk
    rw [freshFold_cons]
    by_cases hg : (G x && !(decide (kf x ∈ m.map Prod.fst))) = true
    · have hfresh : kf x ∉ keysOf m := by
        have h2 := and_true_right hg
        simp only [Bool.not_eq_true', decide_eq_false_iff_not] at h2
        exact h2
      have hne : k ≠ kf x := fun he => hfresh (he ▸ hk)
      rw [if_pos hg]
      rw [ih _ k ((mem_keysOf_pyInsert _).mpr (Or.inr hk))]
      exact pyLookup_pyInsert_ne _ _ hne
    · rw [if_neg hg]
      exact ih _ k hk

theorem keysOf_freshFold_new {α κ ρ : Type} [DecidableEq κ] (G : α → Bool)
    (kf : α → κ) (rf : α → ρ) (xs : List α) : ∀ (m : List (κ × ρ)) (k : κ),
    k ∈ keysOf (freshFold G kf rf m xs) →
      k ∈ keysOf m ∨ ∃ x ∈ xs, G x = true ∧ kf x = k := by
  induction xs with
  | nil => intro m k h; exact Or.inl h
  | cons x xs ih =>
    intro m k h
    rw [freshFold_cons] at h
    by_cases hg : (G x && !(decide (kf x ∈ m.map Prod.fst))) = true
    · rw [if_pos hg] at h
      rcases ih _ k h with h1 | ⟨y, hy, hGy, hky⟩
      · rcases (mem_keysOf_pyInsert _).mp h1 with h2 | h2
        · exact Or.inr ⟨x, List.mem_cons_self x xs, and_true_left hg, h2.symm⟩
        · exact Or.inl h2
      · exact Or.inr ⟨y, List.mem_cons_of_mem x hy, hGy, hky⟩
    · rw [if_neg hg] at h
      rcases ih _ k h with h1 | ⟨y, hy, hGy, hky⟩
      · exact Or.inl h1
      · exact Or.inr ⟨y, List.mem_cons_of_mem x hy, hGy, hky⟩

theorem nodup_keysOf_freshFold {α κ ρ : Type} [DecidableEq κ] (G : α → Bool)
    (kf : α → κ) (rf : α → ρ) (xs : List α) : ∀ m : List (κ × ρ),
    (keysOf m).Nodup → (keysOf (freshFold G kf rf m xs)).Nodup := by
  induction xs with
  | nil => intro m h; exact h
  | cons x xs ih =>
    intro m h
    rw [freshFold_cons]
    apply ih
    by_cases hg : (G x && !(decide (kf x ∈ m.map Prod.fst))) = true
    · rw [if_pos hg]
      exact nodup_keysOf_pyInsert _ h
    · rw [if_neg hg]
      exact h

theorem pyLookup_freshFold_first {α κ ρ : Type} [DecidableEq κ] (G : α → Bool)
    (kf : α → κ) (rf : α → ρ) (xs : List α) : ∀ (m : List (κ × ρ)) (k : κ),
    k ∉ keysOf m →
      pyLookup (freshFold G kf rf m xs) k
        = ((xs.filter (fun x => G x && decide (kf x = k))).head?).map rf := by
  induction xs with
  | nil =>
    intro m k hk
    rw [show freshFold G kf rf m [] = m from rfl, pyLookup_eq_none_of_not_mem hk]
    rfl
  | cons x xs ih =>
    intro m k hk
    rw [List.filter_cons]
    cases hmatch : (G x && decide (kf x = k)) with
    | true =>
      have hG : G x = true := and_true_left hmatch
      have hkf : kf x = k := of_decide_eq_true (and_true_right hmatch)
      have hk' : ¬ kf x ∈ List.map Prod.fst m := by rw [hkf]; exact hk
      have hg : (G x && !(decide (kf x ∈ m.map Prod.fst))) = true := by
        rw [hG, decide_eq_false hk']
        rfl
      rw [freshFold_cons, if_pos hg]
      rw [pyLookup_freshFold_of_mem _ _ _ _ _ k
        ((mem_keysOf_pyInsert _).mpr (Or.inl hkf.symm))]
      rw [← hkf, pyLookup_pyInsert_self]
      simp
    | false =>
      rw [if_neg (by simp [hmatch])]
      by_cases hg : (G x && !(decide (kf x ∈ m.map Prod.fst))) = true
      · have hG := and_true_left hg
        have hkne : kf x ≠ k := by
          intro he
          have : (G x && decide (kf x = k)) = true := by rw [hG, he]; simp
          rw [hmatch] at this
          exact Bool.false_ne_true this
        rw [freshFold_cons, if_pos hg]
        apply ih
        intro hmem
        rcases (mem_keysOf_pyInsert _).mp hmem with h1 | h1
        · exact hkne h1.symm
        · exact hk h1
      · rw [freshFold_cons, if_neg hg]
        exact ih _ _ hk

/-! ## Claim theorems -/

/-- C10: in both primary scans, every record of type `publisher` is
inserted under its resolved key (the null key when no GUID rule matches),
with last-write-wins replacement: the stored record for any key is the
one built from the last matching feed, and the key lists are duplicate
free, so at most one unmatched (null-key) record is retained. -/
theorem primary_scan_last_write_wins (fs : List Feed) (k : Option String) :
    pyLookup (primaryScan1 fs) k
      = ((fs.filter (fun f => isPub f && decide (key1 f = k))).getLast?).map mkPrimary1
    ∧ pyLookup (primaryScan2 fs) k
      = ((fs.filter (fun f => isPub f && decide (key2 f = k))).getLast?).map mkPrimary2
    ∧ (keysOf (primaryScan1 fs)).Nodup
    ∧ (keysOf (primaryScan2 fs)).Nodup := by
  refine ⟨?_, ?_, ?_, ?_⟩
  · rw [show primaryScan1 fs = upsertFold isPub key1 mkPrimary1 [] fs from rfl]
    rw [pyLookup_upsertFold]
    exact elim_none_some _ _
  · rw [show primaryScan2 fs = upsertFold isPub key2 mkPrimary2 [] fs from rfl]
    rw [pyLookup_upsertFold]
    exact elim_none_some _ _
  · exact nodup_keysOf_upsertFold isPub key1 mkPrimary1 fs [] (by simp [keysOf])
  · exact nodup_keysOf_upsertFold isPub key2 mkPrimary2 fs [] (by simp [keysOf])

/-- C1: for every input document the final publisher maps of both scripts
have duplicate-free key lists (at most one entry per GUID), the reference
scans never overwrite a primary-scan entry, and every key added by a
reference scan beyond the primary map is non-null. -/
theorem dedup_invariant (fs : List Feed)
    (enum : List (Option String × String) → List (Option String × String)) :
    (keysOf (extract_publishers fs)).Nodup
    ∧ (keysOf (extract_all_publishers fs enum)).Nodup
    ∧ (∀ k v, pyLookup (primaryScan1 fs) k = some v →
        pyLookup (extract_publishers fs) k = some v)
    ∧ (∀ k v, pyLookup (primaryScan2 fs) k = some v →
        pyLookup (extract_all_publishers fs enum) k = some v)
    ∧ (∀ k, k ∈ keysOf (extract_publishers fs) →
        k ∉ keysOf (primaryScan1 fs) → k ≠ none)
    ∧ (∀ k, k ∈ keysOf (extract_all_publishers fs enum) →
        k ∉ keysOf (primaryScan2 fs) → k ≠ none) := by
  have hnd1 : (keysOf (primaryScan1 fs)).Nodup :=
    nodup_keysOf_upsertFold isPub key1 mkPrimary1 fs [] (by simp [keysOf])
  have hnd2 : (keysOf (primaryScan2 fs)).Nodup :=
    nodup_keysOf_upsertFold isPub key2 mkPrimary2 fs [] (by simp [keysOf])
  refine ⟨?_, ?_, ?_, ?_, ?_, ?_⟩
  · exact nodup_keysOf_freshFold _ _ _ fs (primaryScan1 fs) hnd1
  · exact nodup_keysOf_freshFold _ _ _ _ (primaryScan2 fs) hnd2
  · intro k v h
    exact (pyLookup_freshFold_of_mem _ _ _ fs (primaryScan1 fs) k
      (mem_keysOf_of_pyLookup h)).trans h
  · intro k v h
    exact (pyLookup_freshFold_of_mem _ _ _ _ (primaryScan2 fs) k
      (mem_keysOf_of_pyLookup h)).trans h
  · intro k hk hnk
    rcases keysOf_freshFold_new _ _ _ fs (primaryScan1 fs) k hk with h1 | ⟨f, _, hG, hkf⟩
    · exact absurd h1 hnk
    · intro h0
      rw [h0] at hkf
      rw [hkf] at hG
      simp at hG
  · intro k hk hnk
    rcases keysOf_freshFold_new _ _ _ _ (primaryScan2 fs) k hk with h1 | ⟨p, _, hG, hkf⟩
    · exact absurd h1 hnk
    · intro h0
      rw [h0] at hkf
      rw [hkf] at hG
      simp [truthy] at hG

/-- Witness for C1 at the concrete document `[wavFeed, bandYFeed]`: the
primary-scan entry for GUID `abc123` survives the reference scan, and the
key `xyz` added by the reference scan is non-null. -/
theorem dedup_invariant_witness :
    pyLookup (primaryScan1 [wavFeed, bandYFeed]) (some "abc123")
      = some ⟨some "abc123", "https://wavlake.com/feed/artist/abc123", "Artist X", "", emptyPD⟩
    ∧ pyLookup (extract_publishers [wavFeed, bandYFeed]) (some "abc123")
      = some ⟨some "abc123", "https://wavlake.com/feed/artist/abc123", "Artist X", "", emptyPD⟩
    ∧ some "xyz" ∈ keysOf (extract_publishers [wavFeed, bandYFeed])
    ∧ some "xyz" ∉ keysOf (primaryScan1 [wavFeed, bandYFeed])
    ∧ (some "xyz" : Option String) ≠ none :=
  ⟨by decide,
   (dedup_invariant [wavFeed, bandYFeed] idEnum).2.2.1 (some "abc123") _ (by decide),
   by decide, by decide,
   (dedup_invariant [wavFeed, bandYFeed] idEnum).2.2.2.2.1 (some "xyz")
     (by decide) (by decide)⟩

/-- C2: any feed URL containing the Wavlake artist-path substring
resolves, in both scripts, to the final slash-delimited segment of the
URL, and the spec's scenario feed produces GUID `abc123` with title
`Artist X` in both publisher maps. -/
theorem wavlake_guid_rule :
    (∀ url, containsSub "wavlake.com/feed/artist/" url = true →
      resolveGuid1 url = some (lastSegment url)
      ∧ resolveGuid2 url = some (lastSegment url))
    ∧ pyLookup (extract_publishers [wavFeed]) (some "abc123")
        = some ⟨some "abc123", "https://wavlake.com/feed/artist/abc123", "Artist X", "", emptyPD⟩
    ∧ pyLookup (extract_all_publishers [wavFeed] idEnum) (some "abc123")
        = some ⟨some "abc123", "https://wavlake.com/feed/artist/abc123", "Artist X",
            "", "", "", "", "", ""⟩ := by
  refine ⟨?_, by decide, by decide⟩
  intro url h
  constructor
  · unfold resolveGuid1
    rw [if_pos h]
  · unfold resolveGuid2
    rw [if_pos h]

/-- Witness for C2 at the scenario URL. -/
theorem wavlake_guid_rule_witness :
    containsSub "wavlake.com/feed/artist/" "https://wavlake.com/feed/artist/abc123" = true
    ∧ resolveGuid1 "https://wavlake.com/feed/artist/abc123"
        = some (lastSegment "https://wavlake.com/feed/artist/abc123")
    ∧ resolveGuid2 "https://wavlake.com/feed/artist/abc123"
        = some (lastSegment "https://wavlake.com/feed/artist/abc123") :=
  ⟨by decide,
   (wavlake_guid_rule.1 "https://wavlake.com/feed/artist/abc123" (by decide)).1,
   (wavlake_guid_rule.1 "https://wavlake.com/feed/artist/abc123" (by decide)).2⟩

/-- Counterexample to C3 as stated: `bothUrl` contains the BitPunk
publisher path, yet because it also contains the Wavlake artist path,
which is checked first, both resolvers return the URL's final path
segment instead of the fixed literal GUID, and a publisher-typed feed
with that URL is not stored under the fixed literal. -/
theorem bitpunk_guid_rule_cex :
    containsSub "zine.bitpunk.fm/feeds/publisher.xml" bothUrl = true
    ∧ isPub bothFeed = true
    ∧ resolveGuid1 bothUrl ≠ some "5883e6be-4e0c-11f0-9524-00155dc57d8e"
    ∧ resolveGuid2 bothUrl ≠ some "5883e6be-4e0c-11f0-9524-00155dc57d8e"
    ∧ resolveGuid1 bothUrl = some "publisher.xml"
    ∧ pyLookup (primaryScan1 [bothFeed])
        (some "5883e6be-4e0c-11f0-9524-00155dc57d8e") = none := by
  decide

/-- C3 amended: for every feed of type `publisher` whose URL contains the
BitPunk publisher path and does not contain the Wavlake artist path
(which takes precedence), both scripts resolve the GUID to the fixed
literal, regardless of the record's other fields. -/
theorem bitpunk_guid_rule_amended (f : Feed) (_h0 : isPub f = true)
    (h1 : containsSub "zine.bitpunk.fm/feeds/publisher.xml" (f.originalUrl.getD "") = true)
    (h2 : containsSub "wavlake.com/feed/artist/" (f.originalUrl.getD "") = false) :
    key1 f = some "5883e6be-4e0c-11f0-9524-00155dc57d8e"
    ∧ key2 f = some "5883e6be-4e0c-11f0-9524-00155dc57d8e" := by
  constructor
  · unfold key1 resolveGuid1
    rw [if_neg (by simp [h2]), if_pos h1]
  · unfold key2 resolveGuid2
    rw [if_neg (by simp [h2]), if_pos h1]

/-- Witness for the amended C3 at `bitFeed`. -/
theorem bitpunk_guid_rule_amended_witness :
    isPub bitFeed = true
    ∧ containsSub "zine.bitpunk.fm/feeds/publisher.xml" (bitFeed.originalUrl.getD "") = true
    ∧ containsSub "wavlake.com/feed/artist/" (bitFeed.originalUrl.getD "") = false
    ∧ key1 bitFeed = some "5883e6be-4e0c-11f0-9524-00155dc57d8e"
    ∧ key2 bitFeed = some "5883e6be-4e0c-11f0-9524-00155dc57d8e" :=
  ⟨by decide, by decide, by decide,
   (bitpunk_guid_rule_amended bitFeed (by decide) (by decide) (by decide)).1,
   (bitpunk_guid_rule_amended bitFeed (by decide) (by decide) (by decide)).2⟩

theorem synth1_spec (f : Feed) (g : String) (h : refGuid f = some g) :
    synth1 f = ⟨some g, refFeedUrlOf f,
      if (refArtistOf f).isEmpty then "Unknown Publisher"
      else "Unknown Publisher (" ++ refArtistOf f ++ ")",
      "publisher-" ++ g, emptyPD⟩ := by
  unfold refGuid at h
  unfold synth1 refFeedUrlOf refArtistOf
  cases ha : (f.parsedData.getD emptyPD).album with
  | none =>
    rw [ha] at h
    exact absurd h (by simp)
  | some alb =>
    rw [ha] at h
    simp only [Option.getD_some] at h ⊢
    cases hmed : ((alb.publisher.getD emptyRef).medium == some "publisher") with
    | false =>
      rw [hmed] at h
      simp at h
    | true =>
      rw [hmed] at h
      simp only [if_true] at h
      cases hfg : (alb.publisher.getD emptyRef).feedGuid with
      | none =>
        rw [hfg] at h
        exact absurd h (by simp)
      | some s =>
        rw [hfg] at h
        have h' : (if s.isEmpty = true then none else some s) = some g := h
        cases hse : s.isEmpty with
        | true =>
          rw [hse] at h'
          simp at h'
        | false =>
          rw [hse] at h'
          have hsg : s = g := by simpa using h'
          subst hsg
          rfl

/-- Counterexample to C4 as stated: the claim cites both scripts, but
`final_publisher_summary.py` synthesizes the spec scenario's record with
title `Unknown Publisher`, ignoring the artist `Band Y`; moreover in
`extract_publishers.py` a record whose publisher reference carries the
non-null empty-string GUID is never synthesized (Python truthiness), even
though the GUID is non-null and absent from the primary map. -/
theorem reference_synthesis_cex :
    (pyLookup (extract_all_publishers [bandYFeed] idEnum) (some "xyz")).map PubRec2.title
      = some "Unknown Publisher"
    ∧ some "Unknown Publisher" ≠ some "Unknown Publisher (Band Y)"
    ∧ keysOf (primaryScan2 [bandYFeed]) = []
    ∧ extract_publishers [emptyGuidFeed] = []
    ∧ keysOf (primaryScan1 [emptyGuidFeed]) = [] := by
  decide

/-- C4 amended, restricted to `extract_publishers.py` and to non-empty
GUIDs: for every document, if `g` is absent from the primary map and `f`
is the first feed whose `parsedData.album.publisher` reference (with
`medium = "publisher"` and truthy `feedGuid`) resolves to `g`, then the
reference scan synthesizes a record with id `"publisher-" + g` titled
`"Unknown Publisher (" + artist + ")"` when the album artist is
non-empty and `"Unknown Publisher"` otherwise; in
`final_publisher_summary.py` the scenario record is instead titled
`"Unknown Publisher"`. -/
theorem reference_synthesis_amended :
    (∀ (fs : List Feed) (g : String) (f : Feed),
      some g ∉ keysOf (primaryScan1 fs) →
      (fs.filter (fun x => decide (refGuid x = some g))).head? = some f →
      pyLookup (extract_publishers fs) (some g)
        = some ⟨some g, refFeedUrlOf f,
            if (refArtistOf f).isEmpty then "Unknown Publisher"
            else "Unknown Publisher (" ++ refArtistOf f ++ ")",
            "publisher-" ++ g, emptyPD⟩)
    ∧ (pyLookup (extract_publishers [bandYFeed]) (some "xyz")).map PubRec1.title
        = some "Unknown Publisher (Band Y)"
    ∧ (pyLookup (extract_all_publishers [bandYFeed] idEnum) (some "xyz")).map PubRec2.title
        = some "Unknown Publisher" := by
  refine ⟨?_, by decide, by decide⟩
  intro fs g f h1 h2
  have hstep : pyLookup (extract_publishers fs) (some g)
      = ((fs.filter (fun x => (refGuid x).isSome
          && decide (refGuid x = some g))).head?).map synth1 :=
    pyLookup_freshFold_first _ _ _ fs (primaryScan1 fs) (some g) h1
  have hfilter : fs.filter (fun x => (refGuid x).isSome && decide (refGuid x = some g))
      = fs.filter (fun x => decide (refGuid x = some g)) := by
    apply List.filter_congr
    intro x _
    cases hrg : refGuid x with
    | none => simp
    | some s => simp
  rw [hfilter, h2] at hstep
  have hmemf : f ∈ fs.filter (fun x => decide (refGuid x = some g)) :=
    List.mem_of_mem_head? (Option.mem_def.mpr h2)
  have hrg : refGuid f = some g := of_decide_eq_true ((List.mem_filter.mp hmemf).2)
  have hstep' : pyLookup (extract_publishers fs) (some g) = some (synth1 f) := hstep
  rw [synth1_spec f g hrg] at hstep'
  exact hstep'

/-- Witness for the amended C4 on the document `[wavFeed, bandYFeed]`. -/
theorem reference_synthesis_amended_witness :
    some "xyz" ∉ keysOf (primaryScan1 [wavFeed, bandYFeed])
    ∧ ([wavFeed, bandYFeed].filter
        (fun x => decide (refGuid x = some "xyz"))).head? = some bandYFeed
    ∧ pyLookup (extract_publishers [wavFeed, bandYFeed]) (some "xyz")
        = some ⟨some "xyz", refFeedUrlOf bandYFeed,
            if (refArtistOf bandYFeed).isEmpty then "Unknown Publisher"
            else "Unknown Publisher (" ++ refArtistOf bandYFeed ++ ")",
            "publisher-" ++ "xyz", emptyPD⟩ :=
  ⟨by decide, by decide,
   reference_synthesis_amended.1 [wavFeed, bandYFeed] "xyz" bandYFeed
     (by decide) (by decide)⟩

theorem pyOrS_chain_eq (pn t a : String) :
    pyOrS pn (pyOrS t a) = (if pn ≠ "" then pn else if t ≠ "" then t else a) := by
  unfold pyOrS
  by_cases h1 : pn = "" <;> by_cases h2 : t = "" <;>
    simp [h1, h2, String.isEmpty_iff]

theorem displayName_code_eq_spec (g : String) (info : PubRec2) :
    (mkMapping g info).displayName = displayNameSpec g info := by
  show (if (pyOrS info.publisherName (pyOrS info.title info.artist)).isEmpty
        || (pyOrS info.publisherName (pyOrS info.title info.artist)) == "Unknown Publisher"
      then urlFallbackName g info.feedUrl
      else pyOrS info.publisherName (pyOrS info.title info.artist))
    = (if ((if info.publisherName ≠ "" then info.publisherName
            else if info.title ≠ "" then info.title else info.artist) = ""
          ∨ (if info.publisherName ≠ "" then info.publisherName
            else if info.title ≠ "" then info.title else info.artist) = "Unknown Publisher")
      then (if containsSub "wavlake.com/feed/artist/" info.feedUrl then
              "Wavlake Artist " ++ strTake 8 g
            else if containsSub "bitpunk.fm" info.feedUrl then "BitPunk.fm"
            else if containsSub "doerfel" (lowerStr info.feedUrl) then "The Doerfels"
            else "Publisher " ++ strTake 8 g)
      else (if info.publisherName ≠ "" then info.publisherName
            else if info.title ≠ "" then info.title else info.artist))
  rw [pyOrS_chain_eq]
  generalize (if info.publisherName ≠ "" then info.publisherName
      else if info.title ≠ "" then info.title else info.artist) = b
  by_cases hc : b = "" ∨ b = "Unknown Publisher"
  · have hb : (b.isEmpty || b == "Unknown Publisher") = true := by
      rcases hc with h | h <;> rw [h] <;> decide
    rw [if_pos hb, if_pos hc]
    rfl
  · push_neg at hc
    have he1 : b.isEmpty = false := by
      cases hbe : b.isEmpty
      · rfl
      · exact absurd ((String.isEmpty_iff _).mp hbe) hc.1
    have he2 : (b == "Unknown Publisher") = false := by
      cases hbe : (b == "Unknown Publisher")
      · rfl
      · exact absurd (eq_of_beq hbe) hc.2
    have hb : (b.isEmpty || b == "Unknown Publisher") = false := by
      rw [he1, he2]
      rfl
    rw [if_neg (by simp [hb]), if_neg (by
      intro hcc
      rcases hcc with h | h
      · exact hc.1 h
      · exact hc.2 h)]

theorem mkMapping_eq_spec (g : String) (info : PubRec2) :
    mkMapping g info
      = ⟨g, displayNameSpec g info, urlSafe (displayNameSpec g info),
         info.feedUrl, info.status⟩ := by
  have hdn : (mkMapping g info).displayName = displayNameSpec g info :=
    displayName_code_eq_spec g info
  have hslug : (mkMapping g info).urlSlug = urlSafe (displayNameSpec g info) := by
    rw [show (mkMapping g info).urlSlug
        = urlSafe ((mkMapping g info).displayName) from rfl, hdn]
  calc mkMapping g info
      = ⟨(mkMapping g info).guid, (mkMapping g info).displayName,
         (mkMapping g info).urlSlug, (mkMapping g info).feedUrl,
         (mkMapping g info).status⟩ := rfl
    _ = ⟨g, displayNameSpec g info, urlSafe (displayNameSpec g info),
         info.feedUrl, info.status⟩ := by
        rw [hdn, hslug]
        rfl

/-- C5: for every valid publisher record in the map handed to the display
mapper, the stored display name equals the spec's precedence
(`publisherName`, then `title`, then `artist`, URL fallbacks only when
the result is empty or the literal `Unknown Publisher`), and the stored
slug is derived from that name. -/
theorem display_name_resolution (pubs : List (Option String × PubRec2))
    (g : String) (rec : PubRec2) (hmem : (some g, rec) ∈ pubs)
    (hnd : (keysOf pubs).Nodup) (hok : guidBad (some g) = false) :
    pyLookup (create_human_readable_mappings pubs) g
      = some ⟨g, displayNameSpec g rec, urlSafe (displayNameSpec g rec),
          rec.feedUrl, rec.status⟩ := by
  have hchar := pyLookup_upsertFold
      (fun p : Option String × PubRec2 => !guidBad p.1)
      (fun p : Option String × PubRec2 => p.1.getD "")
      (fun p : Option String × PubRec2 => mkMapping (p.1.getD "") p.2) g pubs []
  have hsingle : pubs.filter
      (fun p : Option String × PubRec2 => !guidBad p.1 && decide (p.1.getD "" = g))
      = [(some g, rec)] := by
    apply filter_eq_singleton_of_nodup _ pubs (some g) rec hnd hmem
    · simp [hok]
    · intro p hq
      have h1 : guidBad p.1 = false := by
        have := and_true_left hq
        simpa using this
      have h2 : p.1.getD "" = g := of_decide_eq_true (and_true_right hq)
      cases hp : p.1 with
      | none =>
        rw [hp] at h1
        simp [guidBad] at h1
      | some s =>
        rw [hp] at h2
        simp only [Option.getD_some] at h2
        rw [h2]
  rw [show create_human_readable_mappings pubs
      = upsertFold (fun p : Option String × PubRec2 => !guidBad p.1)
          (fun p : Option String × PubRec2 => p.1.getD "")
          (fun p : Option String × PubRec2 => mkMapping (p.1.getD "") p.2)
          [] pubs from rfl]
  rw [hchar, hsingle]
  show some (mkMapping g rec)
      = some ⟨g, displayNameSpec g rec, urlSafe (displayNameSpec g rec),
          rec.feedUrl, rec.status⟩
  rw [mkMapping_eq_spec]

/-- Witness for C5 at the record the primary scan builds for `wavFeed`. -/
theorem display_name_resolution_witness :
    (some "abc123", wavRec2) ∈ extract_all_publishers [wavFeed] idEnum
    ∧ (keysOf (extract_all_publishers [wavFeed] idEnum)).Nodup
    ∧ guidBad (some "abc123") = false
    ∧ pyLookup (create_human_readable_mappings
        (extract_all_publishers [wavFeed] idEnum)) "abc123"
      = some ⟨"abc123", displayNameSpec "abc123" wavRec2,
          urlSafe (displayNameSpec "abc123" wavRec2),
          wavRec2.feedUrl, wavRec2.status⟩ :=
  ⟨by decide, by decide, by decide,
   display_name_resolution (extract_all_publishers [wavFeed] idEnum)
     "abc123" wavRec2 (by decide) (by decide) (by decide)⟩

/-- C6: slug derivation is the deterministic lowercase/hyphenate/strip
function of the resolved display name — every mapping entry's `urlSlug`
equals `urlSafe` of its `displayName` — and the display name
`BitPunk.fm` yields the slug `bitpunkfm`, also end to end for the
BitPunk publisher feed. -/
theorem slug_derivation :
    urlSafe "BitPunk.fm" = "bitpunkfm"
    ∧ (∀ (pubs : List (Option String × PubRec2)) (e : String × Mapping),
        e ∈ create_human_readable_mappings pubs →
        e.2.urlSlug = urlSafe e.2.displayName)
    ∧ (pyLookup (create_human_readable_mappings
        (extract_all_publishers [bitFeed] idEnum))
        "5883e6be-4e0c-11f0-9524-00155dc57d8e").map Mapping.urlSlug
      = some "bitpunkfm" := by
  refine ⟨by decide, ?_, by decide⟩
  intro pubs e he
  rcases mem_upsertFold _ _ _ pubs [] e he with h | ⟨p, _, _, he2⟩
  · cases h
  · subst he2
    rfl

/-- Witness for C6 at the mapping entry built for `wavFeed`. -/
theorem slug_derivation_witness :
    ("abc123", wavMapping)
      ∈ create_human_readable_mappings (extract_all_publishers [wavFeed] idEnum)
    ∧ wavMapping.urlSlug = urlSafe wavMapping.displayName :=
  ⟨by decide,
   slug_derivation.2.1 (extract_all_publishers [wavFeed] idEnum)
     ("abc123", wavMapping) (by decide)⟩

/-- C7: null-GUID records are retained internally (stored under the null
key) but never counted — inserting a null-keyed record changes neither
script's valid-publisher count — and never reach the display mappings;
on a document with one unmatched publisher feed the pipeline completes
with the record retained, a count of zero, and no mappings. -/
theorem null_guid_handling :
    (∀ (m : List (Option String × PubRec1)) (r : PubRec1),
      ((keysOf (pyInsert m none r)).filter truthy).length
        = ((keysOf m).filter truthy).length)
    ∧ (∀ (m : List (Option String × PubRec2)) (r : PubRec2),
      (validKeys2 (pyInsert m none r)).length = (validKeys2 m).length)
    ∧ (∀ (pubs : List (Option String × PubRec2)) (e : String × Mapping),
        e ∈ create_human_readable_mappings pubs →
        guidBad (some e.1) = false ∧ ∃ rec, (some e.1, rec) ∈ pubs)
    ∧ keysOf (extract_publishers [unmatchedFeed]) = [none]
    ∧ count1 [unmatchedFeed] = 0
    ∧ keysOf (extract_all_publishers [unmatchedFeed] idEnum) = [none]
    ∧ validKeys2 (extract_all_publishers [unmatchedFeed] idEnum) = []
    ∧ create_human_readable_mappings
        (extract_all_publishers [unmatchedFeed] idEnum) = [] := by
  refine ⟨?_, ?_, ?_, by decide, by decide, by decide, by decide, by decide⟩
  · intro m r
    rw [filter_keysOf_pyInsert truthy m none r rfl]
  · intro m r
    show ((keysOf (pyInsert m none r)).filter (fun g => !guidBad g)).length
      = (validKeys2 m).length
    rw [filter_keysOf_pyInsert (fun g => !guidBad g) m none r rfl]
    rfl
  · intro pubs e he
    rcases mem_upsertFold _ _ _ pubs [] e he with h | ⟨p, hp, hG, he2⟩
    · cases h
    · subst he2
      have hgb : guidBad p.1 = false := by simpa using hG
      cases hp1 : p.1 with
      | none =>
        rw [hp1] at hgb
        simp [guidBad] at hgb
      | some s =>
        rw [hp1] at hgb
        constructor
        · exact hgb
        · refine ⟨p.2, ?_⟩
          have hpp : (p.1, p.2) = p := rfl
          rw [hp1] at hpp
          show (some s, p.2) ∈ pubs
          rw [hpp]
          exact hp

/-- Witness for C7 on the mapping entry built for `wavFeed`. -/
theorem null_guid_handling_witness :
    ("abc123", wavMapping)
      ∈ create_human_readable_mappings (extract_all_publishers [wavFeed] idEnum)
    ∧ guidBad (some "abc123") = false
    ∧ ∃ rec, (some "abc123", rec) ∈ extract_all_publishers [wavFeed] idEnum :=
  ⟨by decide,
   (null_guid_handling.2.2.1 (extract_all_publishers [wavFeed] idEnum)
     ("abc123", wavMapping) (by decide)).1,
   (null_guid_handling.2.2.1 (extract_all_publishers [wavFeed] idEnum)
     ("abc123", wavMapping) (by decide)).2⟩

theorem foldl_map_eq {γ α : Type} (f : γ → α → γ) (g : α → α)
    (h : ∀ acc x, f acc (g x) = f acc x) (l : List α) (acc : γ) :
    (l.map g).foldl f acc = l.foldl f acc := by
  induction l generalizing acc with
  | nil => rfl
  | cons x xs ih =>
    simp only [List.map_cons, List.foldl_cons]
    rw [h]
    exact ih _

theorem isPub_fill1 (f : Feed) : isPub (fillFeed1 f) = isPub f := by
  show (fillStr f.type == some "publisher") = (f.type == some "publisher")
  cases f.type <;> rfl

theorem isPub_fill2 (f : Feed) : isPub (fillFeed2 f) = isPub f := by
  show (fillStr f.type == some "publisher") = (f.type == some "publisher")
  cases f.type <;> rfl

theorem key1_fill1 (f : Feed) : key1 (fillFeed1 f) = key1 f := rfl

theorem mkPrimary1_fill1 (f : Feed) : mkPrimary1 (fillFeed1 f) = mkPrimary1 f := rfl

theorem refGuid_fill1 (f : Feed) : refGuid (fillFeed1 f) = refGuid f := rfl

theorem synth1_fill1 (f : Feed) : synth1 (fillFeed1 f) = synth1 f := rfl

theorem key2_fill2 (f : Feed) : key2 (fillFeed2 f) = key2 f := rfl

theorem mkPrimary2_fill2 (f : Feed) : mkPrimary2 (fillFeed2 f) = mkPrimary2 f := rfl

theorem refPairStep_fill2 (s : List (Option String × String)) (f : Feed) :
    refPairStep s (fillFeed2 f) = refPairStep s f := by
  unfold refPairStep
  simp only [fillFeed2]
  cases hpd : f.parsedData with
  | none => rfl
  | some pd =>
    simp only [Option.getD_some, fillPD]
    cases hal : pd.album with
    | none => rfl
    | some alb =>
      simp only [Option.getD_some, fillAlbum, fillRef, fillStr]
      cases hpub : alb.publisher with
      | none => rfl
      | some pub =>
        simp only [Option.getD_some]
        cases hmed : pub.medium with
        | none => rfl
        | some ms => rfl

theorem primaryScan1_fill (fs : List Feed) :
    primaryScan1 (fs.map fillFeed1) = primaryScan1 fs := by
  unfold primaryScan1 upsertFold
  apply foldl_map_eq
  intro acc f
  rw [isPub_fill1, key1_fill1, mkPrimary1_fill1]

theorem primaryScan2_fill (fs : List Feed) :
    primaryScan2 (fs.map fillFeed2) = primaryScan2 fs := by
  unfold primaryScan2 upsertFold
  apply foldl_map_eq
  intro acc f
  rw [isPub_fill2, key2_fill2, mkPrimary2_fill2]

theorem refPairsSet_fill (fs : List Feed) :
    refPairsSet (fs.map fillFeed2) = refPairsSet fs := by
  unfold refPairsSet
  exact foldl_map_eq refPairStep fillFeed2 refPairStep_fill2 fs []

theorem extract1_fill (fs : List Feed) :
    extract_publishers (fs.map fillFeed1) = extract_publishers fs := by
  unfold extract_publishers
  rw [primaryScan1_fill]
  unfold freshFold
  apply foldl_map_eq
  intro acc f
  simp only [refGuid_fill1, synth1_fill1]

theorem extract_all_fill (fs : List Feed)
    (enum : List (Option String × String) → List (Option String × String)) :
    extract_all_publishers (fs.map fillFeed2) enum
      = extract_all_publishers fs enum := by
  unfold extract_all_publishers
  rw [primaryScan2_fill, refPairsSet_fill]

/-- C8: absent fields are read through empty-string/absent defaults:
replacing every absent field of every record by its default leaves both
scripts' publisher maps unchanged, and a record with every field absent
flows through the whole pipeline without effect (the file-level fatal
errors, missing input file and invalid JSON, are outside this embedding,
which starts from a parsed document). -/
theorem defensive_field_access :
    (∀ fs : List Feed,
      extract_publishers (fs.map fillFeed1) = extract_publishers fs)
    ∧ (∀ (fs : List Feed)
        (enum : List (Option String × String) → List (Option String × String)),
      extract_all_publishers (fs.map fillFeed2) enum
        = extract_all_publishers fs enum)
    ∧ extract_publishers [blankFeed] = []
    ∧ extract_all_publishers [blankFeed] idEnum = []
    ∧ report2 [blankFeed] idEnum
        = ["=== ALL UNIQUE PUBLISHERS ===\n",
           "\nTotal unique publishers: 0",
           "\n=== HUMAN-READABLE URL MAPPINGS ===\n"] :=
  ⟨extract1_fill, extract_all_fill, by decide, by decide, by decide⟩

/-- Counterexample to C9 as stated: on a document with two album
references carrying the same GUID under different URLs, two legitimate
iteration orders of the Python set `unique_feed_guids` (its contents and
their reversal) make the pipeline print different reports, so the
printed report is not a function of the input document alone. -/
theorem report_determinism_cex :
    (revEnum (refPairsSet [refFeedA, refFeedB])).Perm
      (refPairsSet [refFeedA, refFeedB])
    ∧ report2 [refFeedA, refFeedB] idEnum ≠ report2 [refFeedA, refFeedB] revEnum :=
  ⟨List.reverse_perm _, by decide⟩

/-- C9 amended: the printed report is a deterministic function of the
input document together with the iteration order of the reference-pair
set; in particular, for documents whose reference scan collects no
pairs, any two iteration orders produce byte-identical reports. -/
theorem report_determinism_amended (fs : List Feed)
    (e1 e2 : List (Option String × String) → List (Option String × String))
    (h1 : (e1 (refPairsSet fs)).Perm (refPairsSet fs))
    (h2 : (e2 (refPairsSet fs)).Perm (refPairsSet fs))
    (h0 : refPairsSet fs = []) :
    report2 fs e1 = report2 fs e2 := by
  rw [h0] at h1 h2
  unfold report2 extract_all_publishers
  rw [h0, List.Perm.eq_nil h1, List.Perm.eq_nil h2]

/-- Witness for the amended C9 on a document with no album references. -/
theorem report_determinism_amended_witness :
    refPairsSet [wavFeed] = []
    ∧ report2 [wavFeed] idEnum = report2 [wavFeed] revEnum :=
  ⟨rfl,
   report_determinism_amended [wavFeed] idEnum revEnum
     (List.Perm.refl _) (List.reverse_perm _) rfl⟩

end StableKraft
